import Mathlib

/-!
Shallow embedding of `internal/docker/builder.go` (the blueprint
construction/caching engine of matrix-construct/complement) and proofs of
the specification claims about it.

Docker daemon calls are modelled by environment records whose fields give
the response of each runtime API call; the embedded functions thread those
responses exactly as the Go control flow does and additionally emit a trace
of the side-effecting calls they issue, so that ordering and
"call was attempted" properties can be stated.
-/

namespace Builder

/-- The fixed ownership label `complementLabel` from builder.go. -/
def complementLabel : String := "complement_context"

/-- A host-port binding as reported by the runtime (`nat.PortBinding`). -/
structure PortBinding where
  hostIP : String
  hostPort : String
deriving DecidableEq, Repr

/-- A published-port map (`nat.PortMap`): container port key to bindings. -/
def PortMap := List (String × List PortBinding)

/-- One scan step of `findPortBinding`'s loop body: does `pb` satisfy any of
the three acceptance rules for bind IP `ip`? -/
def bindingRuleB (ip : String) (pb : PortBinding) : Bool :=
  pb.hostIP = ip || pb.hostIP = "0.0.0.0" || (pb.hostIP = "" && ip = "127.0.0.1")

/-- The binding returned when `pb` is accepted for bind IP `ip`: an exact
match is returned verbatim, the other two rules rewrite the host IP. -/
def bindingResolve (ip : String) (pb : PortBinding) : PortBinding :=
  if pb.hostIP = ip then pb else ⟨ip, pb.hostPort⟩

/-- The single in-order scan of the bindings list performed by the `for` loop
of `findPortBinding` (builder.go lines 578-596). -/
def scanBindings (ip : String) : List PortBinding → Option PortBinding
  | [] => none
  | pb :: rest =>
    if pb.hostIP = ip then some pb
    else if pb.hostIP = "0.0.0.0" then some ⟨ip, pb.hostPort⟩
    else if pb.hostIP = "" && ip = "127.0.0.1" then some ⟨ip, pb.hostPort⟩
    else scanBindings ip rest

/-- `findPortBinding` (builder.go lines 568-599). Errors are modelled by
`Except.error` carrying a short form of the Go error message. -/
def findPortBinding (p : PortMap) (hsPortBindingIP : String) (port : Nat) :
    Except String PortBinding :=
  let portString := toString port ++ "/tcp"
  match p.lookup portString with
  | none => .error ("port " ++ portString ++ " not exposed")
  | some portBindings =>
    if portBindings.isEmpty then
      .error ("port " ++ portString ++ " exposed with not mapped port")
    else
      match scanBindings hsPortBindingIP portBindings with
      | some pb => .ok pb
      | none => .error ("unable to find matching port binding for " ++
          hsPortBindingIP ++ " " ++ portString)

/-- Modelled from the spec: §4.6 `ResolvePort`'s three prioritised rules,
applied as successive passes over the whole bindings list (exact match
first, then all-interfaces, then the empty-address loopback quirk). The
code under test is `findPortBinding`; this definition exists only to be
compared with it. -/
def specResolvePort (p : PortMap) (hsPortBindingIP : String) (port : Nat) :
    Except String PortBinding :=
  let portString := toString port ++ "/tcp"
  match p.lookup portString with
  | none => .error ("port " ++ portString ++ " not exposed")
  | some portBindings =>
    if portBindings.isEmpty then
      .error ("port " ++ portString ++ " exposed with not mapped port")
    else
      match portBindings.find? (fun pb => pb.hostIP = hsPortBindingIP) with
      | some pb => .ok pb
      | none =>
        match portBindings.find? (fun pb => pb.hostIP = "0.0.0.0") with
        | some pb => .ok ⟨hsPortBindingIP, pb.hostPort⟩
        | none =>
          match portBindings.find? (fun pb =>
              pb.hostIP = "" && hsPortBindingIP = "127.0.0.1") with
          | some pb => .ok ⟨hsPortBindingIP, pb.hostPort⟩
          | none => .error ("unable to find matching port binding for " ++
              hsPortBindingIP ++ " " ++ portString)

end Builder

namespace Builder

theorem scanBindings_eq_find (ip : String) (pbs : List PortBinding) :
    scanBindings ip pbs = (pbs.find? (bindingRuleB ip)).map (bindingResolve ip) := by
  induction pbs with
  | nil => rfl
  | cons pb rest ih =>
    simp only [scanBindings]
    by_cases h1 : pb.hostIP = ip
    · have hb : bindingRuleB ip pb = true := by simp [bindingRuleB, h1]
      rw [if_pos h1, List.find?_cons_of_pos _ hb, Option.map_some',
        bindingResolve, if_pos h1]
    · rw [if_neg h1]
      by_cases h2 : pb.hostIP = "0.0.0.0"
      · have hb : bindingRuleB ip pb = true := by simp [bindingRuleB, h2]
        rw [if_pos h2, List.find?_cons_of_pos _ hb, Option.map_some',
          bindingResolve, if_neg h1]
      · rw [if_neg h2]
        by_cases h3 : pb.hostIP = "" ∧ ip = "127.0.0.1"
        · have hc : (pb.hostIP = "" && ip = "127.0.0.1") = true := by
            simp [h3.1, h3.2]
          have hb : bindingRuleB ip pb = true := by
            simp [bindingRuleB, h3.1, h3.2]
          rw [if_pos hc, List.find?_cons_of_pos _ hb, Option.map_some',
            bindingResolve, if_neg h1]
        · have hc : ¬ ((pb.hostIP = "" && ip = "127.0.0.1") = true) := by
            simp only [Bool.and_eq_true, decide_eq_true_eq]
            exact fun hand => h3 ⟨hand.1, hand.2⟩
          have hb : ¬ (bindingRuleB ip pb = true) := by
            simp only [bindingRuleB, Bool.or_eq_true, decide_eq_true_eq,
              Bool.and_eq_true]
            rintro ((hx | hx) | ⟨hx, hy⟩)
            · exact h1 hx
            · exact h2 hx
            · exact h3 ⟨hx, hy⟩
          rw [if_neg hc, List.find?_cons_of_neg _ hb]
          exact ih

/-- Claim C5 is falsified: with bindings `[0.0.0.0:8080, 10.0.0.5:9090]` and
bind IP `10.0.0.5`, an exact-match binding (`10.0.0.5:9090`) is present, yet
`findPortBinding` returns the rewritten all-interfaces binding
(`10.0.0.5:8080`), because the code performs a single in-order scan rather
than giving exact matches priority over all bindings; the spec-ordered
resolver returns the exact match. -/
theorem C5_counterexample :
    findPortBinding [("80/tcp", [⟨"0.0.0.0", "8080"⟩, ⟨"10.0.0.5", "9090"⟩])]
        "10.0.0.5" 80 = .ok ⟨"10.0.0.5", "8080"⟩ ∧
    (⟨"10.0.0.5", "9090"⟩ : PortBinding) ∈
        [(⟨"0.0.0.0", "8080"⟩ : PortBinding), ⟨"10.0.0.5", "9090"⟩] ∧
    (⟨"10.0.0.5", "9090"⟩ : PortBinding).hostIP = "10.0.0.5" ∧
    specResolvePort [("80/tcp", [⟨"0.0.0.0", "8080"⟩, ⟨"10.0.0.5", "9090"⟩])]
        "10.0.0.5" 80 = .ok ⟨"10.0.0.5", "9090"⟩ ∧
    ("8080" : String) ≠ "9090" := by
  refine ⟨rfl, by decide, rfl, rfl, by decide⟩

/-- Claim C5 (amended): port resolution scans the port's bindings in order
and returns the first binding satisfying any of the three rules (exact host
match, returned verbatim; all-interfaces `0.0.0.0`, address rewritten to the
bind IP; empty host address when the bind IP is `127.0.0.1`, address
rewritten) — exact matches have no priority over earlier fallback bindings —
and it returns an error, never a default, when the port is absent, the port
has no bindings, or no binding satisfies any rule. -/
theorem C5_amended_thm (p : PortMap) (ip : String) (port : Nat) :
    (p.lookup (toString port ++ "/tcp") = none →
       findPortBinding p ip port =
         .error ("port " ++ (toString port ++ "/tcp") ++ " not exposed")) ∧
    (∀ pbs, p.lookup (toString port ++ "/tcp") = some pbs →
       (pbs = [] →
          findPortBinding p ip port =
            .error ("port " ++ (toString port ++ "/tcp") ++
              " exposed with not mapped port")) ∧
       (pbs ≠ [] → pbs.find? (bindingRuleB ip) = none →
          findPortBinding p ip port =
            .error ("unable to find matching port binding for " ++ ip ++ " " ++
              (toString port ++ "/tcp"))) ∧
       (∀ pb, pbs.find? (bindingRuleB ip) = some pb →
          findPortBinding p ip port = .ok (bindingResolve ip pb))) := by
  refine ⟨fun hnone => ?_, fun pbs hsome => ⟨fun hnil => ?_, fun hne hfind => ?_,
    fun pb hfind => ?_⟩⟩
  · simp only [findPortBinding, hnone]
  · subst hnil
    simp only [findPortBinding, hsome]
    rfl
  · have hempty : pbs.isEmpty = false := by
      cases pbs with
      | nil => exact absurd rfl hne
      | cons a l => rfl
    simp only [findPortBinding, hsome, hempty, Bool.false_eq_true, if_false,
      scanBindings_eq_find, hfind, Option.map_none']
  · have hne : pbs ≠ [] := by
      rintro rfl
      simp at hfind
    have hempty : pbs.isEmpty = false := by
      cases pbs with
      | nil => exact absurd rfl hne
      | cons a l => rfl
    simp only [findPortBinding, hsome, hempty, Bool.false_eq_true, if_false,
      scanBindings_eq_find, hfind, Option.map_some']

/-- Witness for `C5_amended_thm`: each hypothesis discharged at concrete
inputs — a missing port, an empty bindings list, a no-rule-matches list, and
an all-interfaces fallback binding that resolves for loopback. -/
theorem C5_amended_thm_witness :
    findPortBinding [] "9.9.9.9" 80 = .error "port 80/tcp not exposed" ∧
    findPortBinding [("80/tcp", [])] "9.9.9.9" 80 =
      .error "port 80/tcp exposed with not mapped port" ∧
    findPortBinding [("80/tcp", [⟨"10.0.0.1", "70"⟩])] "9.9.9.9" 80 =
      .error "unable to find matching port binding for 9.9.9.9 80/tcp" ∧
    findPortBinding [("80/tcp", [⟨"0.0.0.0", "8080"⟩])] "127.0.0.1" 80 =
      .ok ⟨"127.0.0.1", "8080"⟩ := by
  refine ⟨(C5_amended_thm [] "9.9.9.9" 80).1 rfl,
    (((C5_amended_thm [("80/tcp", [])] "9.9.9.9" 80).2 [] rfl).1 rfl),
    (((C5_amended_thm [("80/tcp", [⟨"10.0.0.1", "70"⟩])] "9.9.9.9" 80).2
      [⟨"10.0.0.1", "70"⟩] rfl).2.1 (by decide) (by decide)),
    ?_⟩
  have h := (((C5_amended_thm [("80/tcp", [⟨"0.0.0.0", "8080"⟩])]
      "127.0.0.1" 80).2 [⟨"0.0.0.0", "8080"⟩] rfl).2.2
      ⟨"0.0.0.0", "8080"⟩ (by decide))
  exact h.trans (congrArg Except.ok (by decide))

/-! Garbage collection: `Cleanup`, `removeContainers`, `removeImages`,
`removeNetworks` (builder.go lines 70-175). -/

/-- An image summary as returned by `ImageList`: identifier, name tags
(`RepoTags`) and labels. Labels are an association list; `labelOf` mirrors
the Go map read `img.Labels[k]`, which yields `""` for a missing key. -/
structure ImageSummary where
  id : String
  repoTags : List String
  labels : List (String × String)
deriving DecidableEq, Repr

/-- Go map read with zero-value default: `img.Labels[k]`. -/
def ImageSummary.labelOf (img : ImageSummary) (k : String) : String :=
  (img.labels.lookup k).getD ""

/-- Go `strings.HasPrefix pre s`, computed on the character lists. -/
def strHasPrefix (pre s : String) : Bool :=
  pre.data.isPrefixOf s.data

/-- The `isLocalhost` check of `removeImages` (builder.go lines 120-126):
every repo tag starts with `localhost/complement`. -/
def ImageSummary.isLocalhost (img : ImageSummary) : Bool :=
  img.repoTags.all (fun rt => strHasPrefix "localhost/complement" rt)

/-- Responses of the runtime to the calls issued by `Cleanup`. List calls
use the fixed filters `(complementLabel, complement_pkg=namespace)`; remove
calls return `some errorMessage` on failure and `none` on success. -/
structure CleanupEnv where
  containerList : Except String (List String)
  containerRemove : String → Option String
  imageList : Except String (List ImageSummary)
  imageRemove : String → Option String
  networkList : Except String (List String)
  networkRemove : String → Option String

/-- Trace events of the garbage-collection routines: each removal attempt
actually issued to the runtime, and each failure logged by `Cleanup`. -/
inductive CEvent
  | removedContainer (id : String)
  | removedImage (id : String)
  | removedNetwork (id : String)
  | logged (msg : String)
deriving DecidableEq, Repr

/-- Loop body of `removeContainers` (builder.go lines 166-173): each removal
is attempted in order; the first failing removal aborts the loop and its
error is returned. -/
def removeContainersLoop (env : CleanupEnv) : List String → Option String × List CEvent
  | [] => (none, [])
  | c :: rest =>
    match env.containerRemove c with
    | some e => (some e, [.removedContainer c])
    | none =>
      ((removeContainersLoop env rest).1,
        .removedContainer c :: (removeContainersLoop env rest).2)

/-- `removeContainers` (builder.go lines 155-175). -/
def removeContainers (env : CleanupEnv) : Option String × List CEvent :=
  match env.containerList with
  | .error e => (some e, [])
  | .ok cs => removeContainersLoop env cs

/-- Loop body of `removeNetworks` (builder.go lines 96-101): same abort-on-
first-failure shape as the container loop. -/
def removeNetworksLoop (env : CleanupEnv) : List String → Option String × List CEvent
  | [] => (none, [])
  | nw :: rest =>
    match env.networkRemove nw with
    | some e => (some e, [.removedNetwork nw])
    | none =>
      ((removeNetworksLoop env rest).1,
        .removedNetwork nw :: (removeNetworksLoop env rest).2)

/-- `removeNetworks` (builder.go lines 86-103). -/
def removeNetworks (env : CleanupEnv) : Option String × List CEvent :=
  match env.networkList with
  | .error e => (some e, [])
  | .ok nws => removeNetworksLoop env nws

/-- Loop body of `removeImages` (builder.go lines 116-149): skip any image
with a non-`localhost/complement` repo tag, skip keep-listed blueprints,
force-remove the rest, aborting the loop on the first removal error. -/
def removeImagesLoop (env : CleanupEnv) (keepBlueprints : List String) :
    List ImageSummary → Option String × List CEvent
  | [] => (none, [])
  | img :: rest =>
    if ¬ img.isLocalhost then removeImagesLoop env keepBlueprints rest
    else if img.labelOf "complement_blueprint" ∈ keepBlueprints then
      removeImagesLoop env keepBlueprints rest
    else
      match env.imageRemove img.id with
      | some e => (some e, [.removedImage img.id])
      | none =>
        ((removeImagesLoop env keepBlueprints rest).1,
          .removedImage img.id :: (removeImagesLoop env keepBlueprints rest).2)

/-- `removeImages` (builder.go lines 106-152). -/
def removeImages (env : CleanupEnv) (keepBlueprints : List String) :
    Option String × List CEvent :=
  match env.imageList with
  | .error e => (some e, [])
  | .ok imgs => removeImagesLoop env keepBlueprints imgs

/-- The trace of a pass's logged failure, if any (`d.log` in `Cleanup`). -/
def logIfErr (what : String) : Option String → List CEvent
  | none => []
  | some e => [.logged ("Cleanup: Failed to remove " ++ what ++ ": " ++ e)]

/-- `Cleanup` (builder.go lines 70-83): containers, then images, then
networks; each pass's error is logged, never returned. -/
def Cleanup (env : CleanupEnv) (keepBlueprints : List String) : List CEvent :=
  (removeContainers env).2 ++ logIfErr "containers" (removeContainers env).1 ++
    (removeImages env keepBlueprints).2 ++
    logIfErr "images" (removeImages env keepBlueprints).1 ++
    (removeNetworks env).2 ++ logIfErr "networks" (removeNetworks env).1

theorem removeContainersLoop_events (env : CleanupEnv) (cs : List String) :
    ∀ e ∈ (removeContainersLoop env cs).2, ∃ c, e = CEvent.removedContainer c := by
  induction cs with
  | nil => simp [removeContainersLoop]
  | cons c rest ih =>
    intro e he
    simp only [removeContainersLoop] at he
    cases hr : env.containerRemove c with
    | some err =>
      rw [hr] at he
      simp at he
      exact ⟨c, he⟩
    | none =>
      rw [hr] at he
      simp at he
      rcases he with rfl | he
      · exact ⟨c, rfl⟩
      · exact ih e he

theorem removeNetworksLoop_events (env : CleanupEnv) (nws : List String) :
    ∀ e ∈ (removeNetworksLoop env nws).2, ∃ nw, e = CEvent.removedNetwork nw := by
  induction nws with
  | nil => simp [removeNetworksLoop]
  | cons nw rest ih =>
    intro e he
    simp only [removeNetworksLoop] at he
    cases hr : env.networkRemove nw with
    | some err =>
      rw [hr] at he
      simp at he
      exact ⟨nw, he⟩
    | none =>
      rw [hr] at he
      simp at he
      rcases he with rfl | he
      · exact ⟨nw, rfl⟩
      · exact ih e he

theorem removeContainers_events (env : CleanupEnv) :
    ∀ e ∈ (removeContainers env).2, ∃ c, e = CEvent.removedContainer c := by
  intro e he
  cases hls : env.containerList with
  | error m => simp [removeContainers, hls] at he
  | ok cs =>
    simp only [removeContainers, hls] at he
    exact removeContainersLoop_events env cs e he

theorem removeNetworks_events (env : CleanupEnv) :
    ∀ e ∈ (removeNetworks env).2, ∃ nw, e = CEvent.removedNetwork nw := by
  intro e he
  cases hls : env.networkList with
  | error m => simp [removeNetworks, hls] at he
  | ok nws =>
    simp only [removeNetworks, hls] at he
    exact removeNetworksLoop_events env nws e he

theorem logIfErr_events (what : String) (o : Option String) :
    ∀ e ∈ logIfErr what o, ∃ m, e = CEvent.logged m := by
  cases o with
  | none => simp [logIfErr]
  | some m =>
    intro e he
    simp [logIfErr] at he
    exact ⟨_, he⟩

theorem removeImagesLoop_only_eligible (env : CleanupEnv) (keep : List String)
    (imgs : List ImageSummary) (id : String)
    (hmem : CEvent.removedImage id ∈ (removeImagesLoop env keep imgs).2) :
    ∃ img ∈ imgs, img.id = id ∧ img.isLocalhost = true ∧
      img.labelOf "complement_blueprint" ∉ keep := by
  induction imgs with
  | nil => simp [removeImagesLoop] at hmem
  | cons img rest ih =>
    simp only [removeImagesLoop] at hmem
    by_cases hl : img.isLocalhost
    · by_cases hk : img.labelOf "complement_blueprint" ∈ keep
      · rw [if_neg (by simpa using hl), if_pos hk] at hmem
        obtain ⟨i, hi, hrest⟩ := ih hmem
        exact ⟨i, List.mem_cons_of_mem _ hi, hrest⟩
      · rw [if_neg (by simpa using hl), if_neg hk] at hmem
        cases hr : env.imageRemove img.id with
        | some err =>
          rw [hr] at hmem
          simp at hmem
          exact ⟨img, List.mem_cons_self _ _, hmem ▸ rfl, hl, hk⟩
        | none =>
          rw [hr] at hmem
          simp at hmem
          rcases hmem with rfl | hmem
          · exact ⟨img, List.mem_cons_self _ _, rfl, hl, hk⟩
          · obtain ⟨i, hi, hrest⟩ := ih hmem
            exact ⟨i, List.mem_cons_of_mem _ hi, hrest⟩
    · rw [if_pos (by simpa using hl)] at hmem
      obtain ⟨i, hi, hrest⟩ := ih hmem
      exact ⟨i, List.mem_cons_of_mem _ hi, hrest⟩

/-- Claim C3 (confirmed): a `removedImage` attempt issued during `Cleanup`
concerns only an enumerated image every one of whose repo tags begins with
`localhost/complement` and whose blueprint label is outside the keep-list;
in particular a keep-listed image is never removed. -/
theorem C3_gc_removes_only_eligible (env : CleanupEnv) (keep : List String)
    (imgs : List ImageSummary) (id : String)
    (hls : env.imageList = .ok imgs)
    (hmem : CEvent.removedImage id ∈ Cleanup env keep) :
    ∃ img ∈ imgs, img.id = id ∧ img.isLocalhost = true ∧
      img.labelOf "complement_blueprint" ∉ keep := by
  have himg : CEvent.removedImage id ∈ (removeImages env keep).2 := by
    simp only [Cleanup, List.mem_append] at hmem
    rcases hmem with ((((hc | hlog) | hi) | hlog) | hn) | hlog
    · obtain ⟨c, hc'⟩ := removeContainers_events env _ hc
      exact absurd hc' (by simp)
    · obtain ⟨m, hm⟩ := logIfErr_events _ _ _ hlog
      exact absurd hm (by simp)
    · exact hi
    · obtain ⟨m, hm⟩ := logIfErr_events _ _ _ hlog
      exact absurd hm (by simp)
    · obtain ⟨nw, hnw⟩ := removeNetworks_events env _ hn
      exact absurd hnw (by simp)
    · obtain ⟨m, hm⟩ := logIfErr_events _ _ _ hlog
      exact absurd hm (by simp)
  rw [removeImages, hls] at himg
  exact removeImagesLoop_only_eligible env keep imgs id himg

/-- A concrete runtime for the C3 witness: one owned image whose only repo
tag is local and whose blueprint is not kept. -/
def envC3 : CleanupEnv where
  containerList := .ok []
  containerRemove := fun _ => none
  imageList := .ok [⟨"i1", ["localhost/complement:x"], [("complement_blueprint", "bp")]⟩]
  imageRemove := fun _ => none
  networkList := .ok []
  networkRemove := fun _ => none

/-- Witness for `C3_gc_removes_only_eligible` at a concrete runtime where
the single enumerated image is removed. -/
theorem C3_gc_removes_only_eligible_witness :
    CEvent.removedImage "i1" ∈ Cleanup envC3 [] ∧
    ∃ img ∈ [(⟨"i1", ["localhost/complement:x"],
        [("complement_blueprint", "bp")]⟩ : ImageSummary)],
      img.id = "i1" ∧ img.isLocalhost = true ∧
        img.labelOf "complement_blueprint" ∉ ([] : List String) :=
  ⟨by decide, C3_gc_removes_only_eligible envC3 [] _ "i1" rfl (by decide)⟩

/-- A concrete runtime for C8: two owned containers where removing the
first fails, plus one removable image and one network. -/
def envC8 : CleanupEnv where
  containerList := .ok ["c1", "c2"]
  containerRemove := fun c => if c = "c1" then some "boom" else none
  imageList := .ok [⟨"i1", [], []⟩]
  imageRemove := fun _ => none
  networkList := .ok ["n1"]
  networkRemove := fun _ => none

/-- Claim C8 is falsified: when removing container `c1` fails, `Cleanup`
never attempts to remove container `c2` — a single removal failure does
prevent the remaining removals of the same kind from being attempted,
because each removal pass returns on its first error. -/
theorem C8_counterexample :
    envC8.containerList = .ok ["c1", "c2"] ∧
    envC8.containerRemove "c1" = some "boom" ∧
    CEvent.removedContainer "c1" ∈ Cleanup envC8 [] ∧
    CEvent.removedContainer "c2" ∉ Cleanup envC8 [] := by
  refine ⟨rfl, rfl, by decide, by decide⟩

/-- Claim C8 (amended): `Cleanup(namespace)` runs three removal passes —
owned containers, owned eligible images, owned networks — and the passes
are independent and best-effort: every removal attempt of each pass is
issued regardless of the other passes' outcomes, and a pass's failure is
logged, never raised to the caller; within one pass, however, the first
failing removal aborts that pass's remaining removals. -/
theorem C8_amended_thm (env : CleanupEnv) (keep : List String) :
    (∀ e ∈ (removeContainers env).2, e ∈ Cleanup env keep) ∧
    (∀ e ∈ (removeImages env keep).2, e ∈ Cleanup env keep) ∧
    (∀ e ∈ (removeNetworks env).2, e ∈ Cleanup env keep) ∧
    (∀ msg, (removeContainers env).1 = some msg →
       CEvent.logged ("Cleanup: Failed to remove containers: " ++ msg) ∈
         Cleanup env keep) ∧
    (∀ msg, (removeImages env keep).1 = some msg →
       CEvent.logged ("Cleanup: Failed to remove images: " ++ msg) ∈
         Cleanup env keep) ∧
    (∀ msg, (removeNetworks env).1 = some msg →
       CEvent.logged ("Cleanup: Failed to remove networks: " ++ msg) ∈
         Cleanup env keep) := by
  refine ⟨fun e he => ?_, fun e he => ?_, fun e he => ?_,
    fun msg hm => ?_, fun msg hm => ?_, fun msg hm => ?_⟩
  all_goals simp only [Cleanup, List.mem_append]
  · exact Or.inl (Or.inl (Or.inl (Or.inl (Or.inl he))))
  · exact Or.inl (Or.inl (Or.inl (Or.inr he)))
  · exact Or.inl (Or.inr he)
  · refine Or.inl (Or.inl (Or.inl (Or.inl (Or.inr ?_))))
    rw [hm]
    simp [logIfErr]
  · refine Or.inl (Or.inl (Or.inr ?_))
    rw [hm]
    simp [logIfErr]
  · refine Or.inr ?_
    rw [hm]
    simp [logIfErr]

/-- Witness for `C8_amended_thm` at the concrete runtime `envC8`: the image
and network passes still run after the container failure, which is logged. -/
theorem C8_amended_thm_witness :
    CEvent.removedImage "i1" ∈ Cleanup envC8 [] ∧
    CEvent.removedNetwork "n1" ∈ Cleanup envC8 [] ∧
    CEvent.logged "Cleanup: Failed to remove containers: boom" ∈ Cleanup envC8 [] :=
  ⟨(C8_amended_thm envC8 []).2.1 _ (by decide),
   (C8_amended_thm envC8 []).2.2.1 _ (by decide),
   (C8_amended_thm envC8 []).2.2.2.1 "boom" (by decide)⟩

/-! Blueprint construction: `construct`, `ConstructBlueprint`,
`ConstructBlueprintIfNotExist` (builder.go lines 177-360) together with
`createNetworkIfNotExists` and `constructHomeserver`. -/

/-- An instance spec (`b.Homeserver`); only the name is consulted by the
builder itself (base images and setup steps are handled by the external
deployment and instruction collaborators). -/
structure Homeserver where
  name : String
deriving DecidableEq, Repr

/-- A blueprint (`b.Blueprint`): ordered instance specs and the
credential allow-list. -/
structure Blueprint where
  Name : String
  Homeservers : List Homeserver
  KeepAccessTokensForUsers : List String
deriving DecidableEq, Repr

/-- Responses of the container runtime and the external collaborators to
the calls `construct`/`ConstructBlueprint` issue. Per-instance responses
are indexed by the instance's position in the blueprint. Removal-style
calls answer `some errorMessage` on failure. -/
structure BuildEnv where
  networkList : List String → Except String (List String)
  networkCreate : String → Except String (String × String)
  deployErr : Nat → Option String
  deployContainerID : Nat → String
  runErr : Nat → Option String
  accessTokens : String → List (String × String)
  deviceIDs : String → List (String × String)
  asLabels : String → List (String × String)
  containerStop : String → Option String
  containerCommit : String → Except String String
  containerInspect : String → Except String Bool
  containerKill : String → Option String
  containerRemove : String → Option String
  imageList : List String → Nat → Except String (List ImageSummary)
  queryImages : List String → Except String (List ImageSummary)

/-- Trace events of the build routines: every side-effecting runtime call
issued, in program order. The `stopped` event also records the runtime's
answer to the stop call, which the code discards. -/
inductive BEvent
  | constructed (i : Nat)
  | printedLogs (cid : String)
  | removedFailedContainer (cid : String)
  | stopped (cid : String) (timeoutSecs : Nat) (stopErr : Option String)
  | commitCalled (cid : String) (ref : String) (labels : List (String × String))
  | inspected (cid : String)
  | killed (cid : String)
  | listedImages (filters : List String) (attempt : Nat)
  | removedNetworks
  | queriedImages (filters : List String)
deriving DecidableEq, Repr

/-- `createNetworkIfNotExists` (builder.go lines 446-486): reuse the first
existing network for the (namespace, blueprint) pair, otherwise create one;
an empty created ID is fatal, a warning with a valid ID is not. -/
def createNetworkIfNotExists (env : BuildEnv) (pkgNamespace blueprintName : String) :
    Except String String :=
  match env.networkList ["complement_pkg=" ++ pkgNamespace,
      "complement_blueprint=" ++ blueprintName] with
  | .error e => .error (blueprintName ++ ": failed to list networks. " ++ e)
  | .ok nws =>
    match nws with
    | nw :: _ => .ok nw
    | [] =>
      let networkName := "complement_" ++ pkgNamespace ++ "_" ++ blueprintName
      match env.networkCreate networkName with
      | .error e => .error (blueprintName ++ ": failed to create docker network. " ++ e)
      | .ok (id, warning) =>
        if warning ≠ "" then
          if id = "" then
            .error (blueprintName ++ ": fatal warning while creating docker network. " ++ warning)
          else .ok networkName
        else if id = "" then
          .error (blueprintName ++ ": unexpected empty ID while creating networkID")
        else .ok networkName

/-- Per-instance construction outcome (the `result` struct, builder.go
lines 601-606); the instance spec back-reference is kept as the name. -/
structure HsResult where
  err : Option String
  containerID : String
  contextStr : String
  hsName : String
deriving DecidableEq, Repr

/-- The context label `pkgNamespace.blueprintName.hsName`. -/
def contextStrOf (ns bname hsName : String) : String :=
  ns ++ "." ++ bname ++ "." ++ hsName

/-- `constructHomeserver` (builder.go lines 374-402): deploy the base image
(outcome given by the environment), then run the instruction executor; its
error is threaded through unchanged, and the container identifier is
returned even on failure. -/
def constructHomeserver (env : BuildEnv) (ns bname : String) (i : Nat)
    (hs : Homeserver) : HsResult :=
  let ctx := contextStrOf ns bname hs.name
  match env.deployErr i with
  | some e => ⟨some e, env.deployContainerID i, ctx, hs.name⟩
  | none => ⟨env.runErr i, env.deployContainerID i, ctx, hs.name⟩

/-- The access-token labels of the commit loop (builder.go lines 299-314):
a non-empty allow-list keeps only listed users' captured tokens, an empty
allow-list keeps all captured tokens. -/
def tokenLabels (keepFor : List String) (accessTokens : List (String × String)) :
    List (String × String) :=
  if keepFor.length > 0 then
    keepFor.filterMap (fun userID =>
      (accessTokens.lookup userID).map (fun tok => ("access_token_" ++ userID, tok)))
  else
    accessTokens.map (fun kv => ("access_token_" ++ kv.1, kv.2))

/-- The device-id labels of the commit loop (builder.go lines 316-319). -/
def deviceLabels (deviceIDs : List (String × String)) : List (String × String) :=
  deviceIDs.map (fun kv => ("device_id" ++ kv.1, kv.2))

/-- All labels attached at commit time for one instance (builder.go lines
299-325): access tokens per the allow-list, device ids, and the
application-service labels supplied by the external helper. -/
def commitLabels (env : BuildEnv) (bp : Blueprint) (hsName : String) :
    List (String × String) :=
  tokenLabels bp.KeepAccessTokensForUsers (env.accessTokens hsName) ++
    deviceLabels (env.deviceIDs hsName) ++ env.asLabels hsName

/-- The deferred kill registered per successful instance (builder.go lines
271-289): inspect the container; if the inspect fails, only log; kill only
when still running; a kill failure is only logged. -/
def deferKillEvents (env : BuildEnv) (cid : String) : List BEvent :=
  match env.containerInspect cid with
  | .error _ => [.inspected cid]
  | .ok running => if running then [.inspected cid, .killed cid] else [.inspected cid]

/-- Deferred kills run at function exit in reverse registration order. -/
def runDefers (env : BuildEnv) (ds : List HsResult) : List BEvent :=
  ds.reverse.flatMap (fun r => deferKillEvents env r.containerID)

/-- Outcome of the sequential construction loop: either aborted at the
first failing instance (with its error, the loop's trace, and the deferred
kills registered so far) or completed with all per-instance results. -/
inductive LoopOut
  | abort (err : String) (tr : List BEvent) (defers : List HsResult)
  | done (tr : List BEvent) (results : List HsResult)
deriving DecidableEq, Repr

/-- The construction loop of `construct` (builder.go lines 254-291):
instances strictly in order; on the first failure print the failed
container's logs when its identifier is non-empty, force-remove it, and
abort; on success register the deferred kill and continue. -/
def constructLoop (env : BuildEnv) (ns bname : String) :
    List Homeserver → Nat → List HsResult → LoopOut
  | [], _, acc => .done [] acc
  | hs :: rest, i, acc =>
    let res := constructHomeserver env ns bname i hs
    match res.err with
    | some e =>
      .abort e ([.constructed i] ++
        (if res.containerID ≠ "" then [.printedLogs res.containerID] else []) ++
        [.removedFailedContainer res.containerID]) acc
    | none =>
      match constructLoop env ns bname rest (i + 1) (acc ++ [res]) with
      | .abort e tr ds => .abort e (.constructed i :: tr) ds
      | .done tr rs => .done (.constructed i :: tr) rs

/-- The commit loop of `construct` (builder.go lines 294-358): for each
successful result, stop with a 10-second timeout (the stop call's error is
discarded), then commit with the derived reference and labels; a commit
error is recorded and the remaining instances are still committed. -/
def commitPhase (env : BuildEnv) (bp : Blueprint) : List HsResult → List String × List BEvent
  | [] => ([], [])
  | r :: rest =>
    let labels := commitLabels env bp r.hsName
    let ref := "localhost/complement:" ++ r.contextStr
    let stopEv := BEvent.stopped r.containerID 10 (env.containerStop r.containerID)
    match env.containerCommit r.containerID with
    | .error e =>
      ((r.contextStr ++ " : failed to ContainerCommit: " ++ e) ::
          (commitPhase env bp rest).1,
        stopEv :: .commitCalled r.containerID ref labels :: (commitPhase env bp rest).2)
    | .ok _ =>
      ((commitPhase env bp rest).1,
        stopEv :: .commitCalled r.containerID ref labels :: (commitPhase env bp rest).2)

/-- `construct` (builder.go lines 244-360): provision the network, run the
construction loop, commit the successful results, and let the deferred
kills fire on every exit path after the commit attempts. -/
def construct (env : BuildEnv) (ns : String) (bp : Blueprint) :
    List String × List BEvent :=
  match createNetworkIfNotExists env ns bp.Name with
  | .error e => ([e], [])
  | .ok _nw =>
    match constructLoop env ns bp.Name bp.Homeservers 0 [] with
    | .abort e tr ds => ([e], tr ++ runDefers env ds)
    | .done tr rs =>
      ((commitPhase env bp rs).1,
        tr ++ (commitPhase env bp rs).2 ++ runDefers env rs)

/-- The label filters of the image-visibility poll (builder.go lines
212-218): ownership marker, blueprint name, namespace. -/
def pollFilters (ns bname : String) : List String :=
  [complementLabel, "complement_blueprint=" ++ bname, "complement_pkg=" ++ ns]

/-- The image-visibility poll of `ConstructBlueprint` (builder.go lines
206-228): list up to the 5000 ms budget, sleeping 100 ms between attempts,
until at least `needed` images are enumerable; a list error is returned,
exhaustion of the window yields `(false, [])`. -/
def pollLoop (env : BuildEnv) (ns bname : String) (needed elapsed attempt : Nat) :
    Except String (Bool × List ImageSummary) × List BEvent :=
  if elapsed < 5000 then
    match env.imageList (pollFilters ns bname) attempt with
    | .error e => (.error e, [.listedImages (pollFilters ns bname) attempt])
    | .ok imgs =>
      if imgs.length < needed then
        ((pollLoop env ns bname needed (elapsed + 100) (attempt + 1)).1,
          .listedImages (pollFilters ns bname) attempt ::
            (pollLoop env ns bname needed (elapsed + 100) (attempt + 1)).2)
      else (.ok (true, imgs), [.listedImages (pollFilters ns bname) attempt])
  else (.ok (false, []), [])
termination_by 5000 - elapsed

/-- `ConstructBlueprint` (builder.go lines 196-241): construct, then poll
for the expected image count, then remove the blueprint's networks (after
the poll, in both the found and timeout outcomes; the removal error is
discarded), and fail when the count was never reached. -/
def ConstructBlueprint (env : BuildEnv) (ns : String) (bp : Blueprint) :
    Except String Unit × List BEvent :=
  let c := construct env ns bp
  if c.1 ≠ [] then
    (.error ("errors whilst constructing blueprint " ++ bp.Name), c.2)
  else
    let p := pollLoop env ns bp.Name bp.Homeservers.length 0 0
    match p.1 with
    | .error e => (.error e, c.2 ++ p.2)
    | .ok (found, _) =>
      if found then (.ok (), c.2 ++ p.2 ++ [.removedNetworks])
      else
        (.error "failed to find built images via ImageList: did they all build ok?",
          c.2 ++ p.2 ++ [.removedNetworks])

/-- The label filters `ConstructBlueprintIfNotExist` queries with
(builder.go lines 178-183): blueprint name and namespace only. -/
def ifNotExistFilters (ns bname : String) : List String :=
  ["complement_blueprint=" ++ bname, "complement_pkg=" ++ ns]

/-- `ConstructBlueprintIfNotExist` (builder.go lines 177-194). -/
def ConstructBlueprintIfNotExist (env : BuildEnv) (ns : String) (bp : Blueprint) :
    Except String Unit × List BEvent :=
  let qEv := BEvent.queriedImages (ifNotExistFilters ns bp.Name)
  match env.queryImages (ifNotExistFilters ns bp.Name) with
  | .error e =>
    (.error ("ConstructBlueprintIfNotExist(" ++ bp.Name ++ "): failed to ImageList: " ++ e),
      [qEv])
  | .ok imgs =>
    if imgs.length = 0 then
      let cb := ConstructBlueprint env ns bp
      match cb.1 with
      | .error e =>
        (.error ("ConstructBlueprintIfNotExist(" ++ bp.Name ++
            "): failed to ConstructBlueprint: " ++ e), qEv :: cb.2)
      | .ok _ => (.ok (), qEv :: cb.2)
    else (.ok (), [qEv])

/-- Modelled from the spec: the three-tag cache query of §4.1
"`ConstructIfNotExist(blueprint)`: queries the Resource Catalog for an
existing image tagged with (ownership, namespace, blueprint-name)". The
code under test (`ifNotExistFilters`) omits the ownership marker; this
definition exists only to be compared with it. -/
def specIfNotExistFilters (ns bname : String) : List String :=
  [complementLabel, "complement_blueprint=" ++ bname, "complement_pkg=" ++ ns]

/-- Docker-style label filter matching used by the concrete witness
environments: a filter is either a bare label key or a `key=value` pair. -/
def labelFilterMatches (img : ImageSummary) (f : String) : Bool :=
  img.labels.any (fun kv => kv.1 = f || kv.1 ++ "=" ++ kv.2 = f)

/-- A benign concrete runtime: every call succeeds, every catalog is empty,
every instance deploys and sets up cleanly. -/
def baseEnv : BuildEnv where
  networkList := fun _ => .ok []
  networkCreate := fun _ => .ok ("nwid", "")
  deployErr := fun _ => none
  deployContainerID := fun i => "c" ++ toString i
  runErr := fun _ => none
  accessTokens := fun _ => []
  deviceIDs := fun _ => []
  asLabels := fun _ => []
  containerStop := fun _ => none
  containerCommit := fun _ => .ok "sha256:x"
  containerInspect := fun _ => .ok true
  containerKill := fun _ => none
  containerRemove := fun _ => none
  imageList := fun _ _ => .ok []
  queryImages := fun _ => .ok []

/-- A blueprint with no instances. -/
def bpEmpty : Blueprint := ⟨"bp", [], []⟩

/-- A cached image carrying the namespace and blueprint labels but not the
ownership marker. -/
def imgCached : ImageSummary :=
  ⟨"i1", ["localhost/complement:p.bp.hs1"],
    [("complement_blueprint", "bp"), ("complement_pkg", "p")]⟩

/-- A runtime whose image catalog holds exactly `imgCached` and answers
queries by docker label-filter matching. -/
def envCatalog : BuildEnv :=
  { baseEnv with
    queryImages := fun fs =>
      .ok ([imgCached].filter (fun img => fs.all (labelFilterMatches img))) }

theorem ifNotExist_empty_query (env : BuildEnv) (ns : String) (bp : Blueprint)
    (hq : env.queryImages (ifNotExistFilters ns bp.Name) = .ok []) :
    (ConstructBlueprintIfNotExist env ns bp).2 =
      BEvent.queriedImages (ifNotExistFilters ns bp.Name) ::
        (ConstructBlueprint env ns bp).2 ∧
    ((ConstructBlueprint env ns bp).1 = .ok () →
       (ConstructBlueprintIfNotExist env ns bp).1 = .ok ()) ∧
    (∀ e, (ConstructBlueprint env ns bp).1 = .error e →
       (ConstructBlueprintIfNotExist env ns bp).1 =
         .error ("ConstructBlueprintIfNotExist(" ++ bp.Name ++
           "): failed to ConstructBlueprint: " ++ e)) := by
  simp only [ConstructBlueprintIfNotExist, hq, List.length_nil]
  cases hcb : (ConstructBlueprint env ns bp).1 with
  | error e => simp [hcb]
  | ok u => simp [hcb]

theorem ifNotExist_nonempty_query (env : BuildEnv) (ns : String) (bp : Blueprint)
    (imgs : List ImageSummary)
    (hq : env.queryImages (ifNotExistFilters ns bp.Name) = .ok imgs)
    (hne : imgs ≠ []) :
    ConstructBlueprintIfNotExist env ns bp =
      (.ok (), [BEvent.queriedImages (ifNotExistFilters ns bp.Name)]) := by
  have hlen : imgs.length ≠ 0 := by
    simpa [List.length_eq_zero] using hne
  simp only [ConstructBlueprintIfNotExist, hq]
  rw [if_neg hlen]

/-- Claim C2 is falsified: the catalog holds an image tagged with the
namespace and blueprint labels but not the ownership marker, so the
three-tag query of the claim finds no image — the claim then requires
`Construct` to be called — yet `ConstructBlueprintIfNotExist` succeeds with
a trace consisting solely of its two-tag catalog query: the code filters on
(blueprint, namespace) only, omitting the ownership marker. -/
theorem C2_counterexample :
    envCatalog.queryImages (specIfNotExistFilters "p" "bp") = .ok [] ∧
    envCatalog.queryImages (ifNotExistFilters "p" "bp") = .ok [imgCached] ∧
    complementLabel ∉ ifNotExistFilters "p" "bp" ∧
    (ConstructBlueprintIfNotExist envCatalog "p" bpEmpty).1 = .ok () ∧
    (ConstructBlueprintIfNotExist envCatalog "p" bpEmpty).2 =
      [BEvent.queriedImages (ifNotExistFilters "p" "bp")] := by
  have h := ifNotExist_nonempty_query envCatalog "p" bpEmpty [imgCached]
    rfl (by decide)
  refine ⟨rfl, rfl, by decide, ?_, ?_⟩
  · rw [h]
  · rw [h]
    rfl

/-- Claim C2 (amended): `ConstructIfNotExist(blueprint)` queries the catalog
for an existing image tagged with the namespace and the blueprint name (the
ownership marker is not part of the filter), and calls `Construct` exactly
when that query returns no image; hence a second call in succession after a
successful build performs no construction and still succeeds. -/
theorem C2_amended_thm (env : BuildEnv) (ns : String) (bp : Blueprint) :
    (env.queryImages (ifNotExistFilters ns bp.Name) = .ok [] →
       (ConstructBlueprintIfNotExist env ns bp).2 =
         BEvent.queriedImages (ifNotExistFilters ns bp.Name) ::
           (ConstructBlueprint env ns bp).2 ∧
       ((ConstructBlueprint env ns bp).1 = .ok () →
          (ConstructBlueprintIfNotExist env ns bp).1 = .ok ())) ∧
    (∀ imgs, env.queryImages (ifNotExistFilters ns bp.Name) = .ok imgs →
       imgs ≠ [] →
       ConstructBlueprintIfNotExist env ns bp =
         (.ok (), [BEvent.queriedImages (ifNotExistFilters ns bp.Name)])) := by
  refine ⟨fun hq => ?_, fun imgs hq hne => ifNotExist_nonempty_query env ns bp imgs hq hne⟩
  obtain ⟨h1, h2, _⟩ := ifNotExist_empty_query env ns bp hq
  exact ⟨h1, h2⟩

/-- Witness for `C2_amended_thm`: an empty catalog makes the call construct
(and succeed), a catalog holding the cached image makes it a no-op. -/
theorem C2_amended_thm_witness :
    (ConstructBlueprintIfNotExist baseEnv "p" bpEmpty).2 =
      BEvent.queriedImages (ifNotExistFilters "p" "bp") ::
        (ConstructBlueprint baseEnv "p" bpEmpty).2 ∧
    ConstructBlueprintIfNotExist envCatalog "p" bpEmpty =
      (.ok (), [BEvent.queriedImages (ifNotExistFilters "p" "bp")]) :=
  ⟨((C2_amended_thm baseEnv "p" bpEmpty).1 rfl).1,
   (C2_amended_thm envCatalog "p" bpEmpty).2 [imgCached] rfl (by decide)⟩

/-! Unfolding lemmas for the image-visibility poll. -/

theorem pollLoop_hit (env : BuildEnv) (ns bname : String)
    (needed elapsed attempt : Nat) (l : List ImageSummary)
    (he : elapsed < 5000)
    (hl : env.imageList (pollFilters ns bname) attempt = .ok l)
    (hge : ¬ l.length < needed) :
    pollLoop env ns bname needed elapsed attempt =
      (.ok (true, l), [.listedImages (pollFilters ns bname) attempt]) := by
  rw [pollLoop, if_pos he, hl]
  simp [hge]

theorem pollLoop_step (env : BuildEnv) (ns bname : String)
    (needed elapsed attempt : Nat) (l : List ImageSummary)
    (he : elapsed < 5000)
    (hl : env.imageList (pollFilters ns bname) attempt = .ok l)
    (hlt : l.length < needed) :
    pollLoop env ns bname needed elapsed attempt =
      ((pollLoop env ns bname needed (elapsed + 100) (attempt + 1)).1,
        .listedImages (pollFilters ns bname) attempt ::
          (pollLoop env ns bname needed (elapsed + 100) (attempt + 1)).2) := by
  rw [pollLoop, if_pos he, hl]
  simp [hlt]

theorem pollLoop_err (env : BuildEnv) (ns bname : String)
    (needed elapsed attempt : Nat) (m : String)
    (he : elapsed < 5000)
    (hl : env.imageList (pollFilters ns bname) attempt = .error m) :
    pollLoop env ns bname needed elapsed attempt =
      (.error m, [.listedImages (pollFilters ns bname) attempt]) := by
  rw [pollLoop, if_pos he, hl]

theorem pollLoop_exhausted (env : BuildEnv) (ns bname : String)
    (needed elapsed attempt : Nat) (he : ¬ elapsed < 5000) :
    pollLoop env ns bname needed elapsed attempt = (.ok (false, []), []) := by
  rw [pollLoop, if_neg he]

theorem construct_nil (env : BuildEnv) (ns : String) (bp : Blueprint)
    (hhs : bp.Homeservers = []) (nw : String)
    (hnet : createNetworkIfNotExists env ns bp.Name = .ok nw) :
    construct env ns bp = ([], []) := by
  rw [construct, hnet, hhs]
  rfl

theorem ConstructBlueprint_nil (env : BuildEnv) (ns : String) (bp : Blueprint)
    (hhs : bp.Homeservers = []) (nw : String)
    (hnet : createNetworkIfNotExists env ns bp.Name = .ok nw)
    (l : List ImageSummary)
    (hl : env.imageList (pollFilters ns bp.Name) 0 = .ok l) :
    ConstructBlueprint env ns bp =
      (.ok (), [.listedImages (pollFilters ns bp.Name) 0, .removedNetworks]) := by
  have hc := construct_nil env ns bp hhs nw hnet
  have hp := pollLoop_hit env ns bp.Name bp.Homeservers.length 0 0 l
    (by norm_num) hl (by simp [hhs])
  rw [ConstructBlueprint, hc]
  simp [hp]

/-- A runtime identical to `baseEnv` except that every `ImageList` call of
the visibility poll fails. -/
def envPollFail : BuildEnv :=
  { baseEnv with imageList := fun _ _ => .error "boom" }

/-- Claim C10 is falsified: for the empty blueprint, network provisioning
succeeds, yet `Construct` fails, because the visibility poll's very first
catalog query errors and that error is returned; success additionally
requires the image-list query to succeed. -/
theorem C10_counterexample :
    bpEmpty.Homeservers = [] ∧
    createNetworkIfNotExists envPollFail "p" bpEmpty.Name = .ok "complement_p_bp" ∧
    (ConstructBlueprint envPollFail "p" bpEmpty).1 = .error "boom" := by
  refine ⟨rfl, rfl, ?_⟩
  have hc := construct_nil envPollFail "p" bpEmpty rfl "complement_p_bp" rfl
  have hp := pollLoop_err envPollFail "p" bpEmpty.Name
    bpEmpty.Homeservers.length 0 0 "boom" (by norm_num) rfl
  rw [ConstructBlueprint, hc]
  simp [hp]

/-- Claim C10 (amended): for a blueprint with no instances, `Construct`
succeeds whenever network provisioning and the first image-catalog query
succeed; the construction and commit loops perform no work, the visibility
poll is satisfied on its first attempt, no image is created, and a
subsequent `ConstructIfNotExist` call whose catalog query finds no image —
none having been created — invokes `Construct` again. -/
theorem C10_amended_thm (env : BuildEnv) (ns : String) (bp : Blueprint)
    (hhs : bp.Homeservers = []) (nw : String)
    (hnet : createNetworkIfNotExists env ns bp.Name = .ok nw)
    (l : List ImageSummary)
    (hl : env.imageList (pollFilters ns bp.Name) 0 = .ok l) :
    (ConstructBlueprint env ns bp).1 = .ok () ∧
    (∀ i, BEvent.constructed i ∉ (ConstructBlueprint env ns bp).2) ∧
    (∀ c r ls, BEvent.commitCalled c r ls ∉ (ConstructBlueprint env ns bp).2) ∧
    (∀ f a, BEvent.listedImages f a ∈ (ConstructBlueprint env ns bp).2 → a = 0) ∧
    (env.queryImages (ifNotExistFilters ns bp.Name) = .ok [] →
       (ConstructBlueprintIfNotExist env ns bp).2 =
         BEvent.queriedImages (ifNotExistFilters ns bp.Name) ::
           (ConstructBlueprint env ns bp).2) := by
  have hcb := ConstructBlueprint_nil env ns bp hhs nw hnet l hl
  refine ⟨?_, ?_, ?_, ?_, fun hq => (ifNotExist_empty_query env ns bp hq).1⟩
  · rw [hcb]
  · intro i
    rw [hcb]
    simp
  · intro c r ls
    rw [hcb]
    simp
  · intro f a hmem
    rw [hcb] at hmem
    simp at hmem
    exact hmem.2

/-- Witness for `C10_amended_thm` at the benign runtime and the empty
blueprint. -/
theorem C10_amended_thm_witness :
    (ConstructBlueprint baseEnv "p" bpEmpty).1 = .ok () ∧
    BEvent.constructed 0 ∉ (ConstructBlueprint baseEnv "p" bpEmpty).2 :=
  ⟨(C10_amended_thm baseEnv "p" bpEmpty rfl "complement_p_bp" rfl [] rfl).1,
   (C10_amended_thm baseEnv "p" bpEmpty rfl "complement_p_bp" rfl [] rfl).2.1 0⟩

/-! Closed forms of the construction loop: the error-or-success of instance
`i` and the registered result of a successful instance. -/

/-- The construction outcome of instance `i` as `construct` sees it: the
deployment error if any, otherwise the instruction runner's error. -/
def hsErrAt (env : BuildEnv) (i : Nat) : Option String :=
  match env.deployErr i with
  | some e => some e
  | none => env.runErr i

/-- The result registered for a successfully constructed instance. -/
def mkRes (env : BuildEnv) (ns bname : String) (i : Nat) (hs : Homeserver) : HsResult :=
  ⟨none, env.deployContainerID i, contextStrOf ns bname hs.name, hs.name⟩

/-- The results of the instances `hss` starting at index `i`, assuming all
of them succeed. -/
def resultsFor (env : BuildEnv) (ns bname : String) :
    List Homeserver → Nat → List HsResult
  | [], _ => []
  | hs :: rest, i => mkRes env ns bname i hs :: resultsFor env ns bname rest (i + 1)

/-- The construction-loop trace when instances `i .. i+k-1` succeed and
instance `i+k` fails. -/
def failTrace (env : BuildEnv) (i k : Nat) : List BEvent :=
  ((List.range (k + 1)).map (fun j => BEvent.constructed (i + j))) ++
    ((if env.deployContainerID (i + k) ≠ "" then
        [BEvent.printedLogs (env.deployContainerID (i + k))] else []) ++
      [BEvent.removedFailedContainer (env.deployContainerID (i + k))])

theorem constructHomeserver_err (env : BuildEnv) (ns bname : String) (i : Nat)
    (hs : Homeserver) :
    (constructHomeserver env ns bname i hs).err = hsErrAt env i := by
  unfold constructHomeserver hsErrAt
  cases env.deployErr i <;> rfl

theorem constructHomeserver_cid (env : BuildEnv) (ns bname : String) (i : Nat)
    (hs : Homeserver) :
    (constructHomeserver env ns bname i hs).containerID = env.deployContainerID i := by
  unfold constructHomeserver
  cases env.deployErr i <;> rfl

theorem constructHomeserver_eq_mkRes (env : BuildEnv) (ns bname : String) (i : Nat)
    (hs : Homeserver) (h : hsErrAt env i = none) :
    constructHomeserver env ns bname i hs = mkRes env ns bname i hs := by
  unfold constructHomeserver mkRes
  unfold hsErrAt at h
  cases hd : env.deployErr i with
  | some e => rw [hd] at h; exact absurd h (by simp)
  | none =>
    rw [hd] at h
    have h' : env.runErr i = none := h
    simp [hd, h']

theorem cons_range_map (i n : Nat) :
    BEvent.constructed i :: (List.range n).map (fun j => BEvent.constructed (i + 1 + j)) =
      (List.range (n + 1)).map (fun j => BEvent.constructed (i + j)) := by
  rw [List.range_succ_eq_map, List.map_cons, List.map_map]
  refine congrArg₂ _ (by simp) ?_
  refine List.map_congr_left (fun a _ => ?_)
  exact congrArg BEvent.constructed (by omega)

theorem constructLoop_done (env : BuildEnv) (ns bname : String) :
    ∀ (hss : List Homeserver) (i : Nat) (acc : List HsResult),
    (∀ j, j < hss.length → hsErrAt env (i + j) = none) →
    constructLoop env ns bname hss i acc =
      .done ((List.range hss.length).map (fun j => BEvent.constructed (i + j)))
        (acc ++ resultsFor env ns bname hss i) := by
  intro hss
  induction hss with
  | nil =>
    intro i acc _
    simp [constructLoop, resultsFor]
  | cons hs rest ih =>
    intro i acc h
    have h0 : hsErrAt env i = none := by simpa using h 0 (by simp)
    have hres := constructHomeserver_eq_mkRes env ns bname i hs h0
    simp only [constructLoop, hres, mkRes]
    have hrec := ih (i + 1) (acc ++ [mkRes env ns bname i hs]) (fun j hj => by
      have := h (j + 1) (by simpa using Nat.succ_lt_succ hj)
      rwa [show i + (j + 1) = i + 1 + j by omega] at this)
    rw [show (⟨none, env.deployContainerID i, contextStrOf ns bname hs.name, hs.name⟩ :
      HsResult) = mkRes env ns bname i hs from rfl, hrec]
    simp only [List.length_cons]
    rw [← cons_range_map i rest.length]
    simp [resultsFor]

theorem constructLoop_fail (env : BuildEnv) (ns bname : String) :
    ∀ (k : Nat) (hss : List Homeserver) (i : Nat) (acc : List HsResult) (e : String),
    k < hss.length →
    (∀ j, j < k → hsErrAt env (i + j) = none) →
    hsErrAt env (i + k) = some e →
    constructLoop env ns bname hss i acc =
      .abort e (failTrace env i k)
        (acc ++ resultsFor env ns bname (hss.take k) i) := by
  intro k
  induction k with
  | zero =>
    intro hss i acc e hk _ hfail
    cases hss with
    | nil => simp at hk
    | cons hs rest =>
      simp only [constructLoop]
      rw [show constructHomeserver env ns bname i hs =
        ⟨hsErrAt env i, env.deployContainerID i, contextStrOf ns bname hs.name,
          hs.name⟩ from by
          unfold constructHomeserver hsErrAt
          cases env.deployErr i <;> rfl]
      rw [show i + 0 = i from rfl] at hfail
      simp only [hfail]
      simp [failTrace, resultsFor, List.range_succ, List.take_zero]
  | succ k ih =>
    intro hss i acc e hk hprev hfail
    cases hss with
    | nil => simp at hk
    | cons hs rest =>
      have h0 : hsErrAt env i = none := by simpa using hprev 0 (Nat.succ_pos k)
      have hres := constructHomeserver_eq_mkRes env ns bname i hs h0
      simp only [constructLoop, hres, mkRes]
      have hrec := ih rest (i + 1) (acc ++ [mkRes env ns bname i hs]) e
        (by simpa using Nat.lt_of_succ_lt_succ hk)
        (fun j hj => by
          have := hprev (j + 1) (Nat.succ_lt_succ hj)
          rwa [show i + (j + 1) = i + 1 + j by omega] at this)
        (by rwa [show i + (k + 1) = i + 1 + k by omega] at hfail)
      rw [show (⟨none, env.deployContainerID i, contextStrOf ns bname hs.name,
        hs.name⟩ : HsResult) = mkRes env ns bname i hs from rfl, hrec]
      have htr : BEvent.constructed i :: failTrace env (i + 1) k =
          failTrace env i (k + 1) := by
        unfold failTrace
        rw [show i + 1 + k = i + (k + 1) by omega]
        rw [← List.cons_append, cons_range_map i (k + 1)]
      show LoopOut.abort e (BEvent.constructed i :: failTrace env (i + 1) k)
          (acc ++ [mkRes env ns bname i hs] ++
            resultsFor env ns bname (List.take k rest) (i + 1)) =
        LoopOut.abort e (failTrace env i (k + 1))
          (acc ++ resultsFor env ns bname (List.take (k + 1) (hs :: rest)) i)
      rw [htr]
      simp [resultsFor, List.append_assoc]

/-! Closed forms of the commit loop and of `construct` on its two exit
paths. -/

theorem commitPhase_trace (env : BuildEnv) (bp : Blueprint) :
    ∀ rs : List HsResult,
    (commitPhase env bp rs).2 = rs.flatMap (fun r =>
      [BEvent.stopped r.containerID 10 (env.containerStop r.containerID),
       BEvent.commitCalled r.containerID ("localhost/complement:" ++ r.contextStr)
         (commitLabels env bp r.hsName)]) := by
  intro rs
  induction rs with
  | nil => rfl
  | cons r rest ih =>
    simp only [commitPhase]
    cases hc : env.containerCommit r.containerID <;> simp [hc, ih]

theorem commitPhase_errs (env : BuildEnv) (bp : Blueprint) :
    ∀ rs : List HsResult,
    (commitPhase env bp rs).1 = rs.filterMap (fun r =>
      match env.containerCommit r.containerID with
      | .error e => some (r.contextStr ++ " : failed to ContainerCommit: " ++ e)
      | .ok _ => none) := by
  intro rs
  induction rs with
  | nil => rfl
  | cons r rest ih =>
    simp only [commitPhase]
    cases hc : env.containerCommit r.containerID <;>
      simp only [hc, List.filterMap_cons, ih]

theorem construct_done (env : BuildEnv) (ns : String) (bp : Blueprint) (nw : String)
    (hnet : createNetworkIfNotExists env ns bp.Name = .ok nw)
    (hok : ∀ j, j < bp.Homeservers.length → hsErrAt env j = none) :
    construct env ns bp =
      ((commitPhase env bp (resultsFor env ns bp.Name bp.Homeservers 0)).1,
        (List.range bp.Homeservers.length).map (fun j => BEvent.constructed j) ++
          (commitPhase env bp (resultsFor env ns bp.Name bp.Homeservers 0)).2 ++
          runDefers env (resultsFor env ns bp.Name bp.Homeservers 0)) := by
  rw [construct, hnet,
    constructLoop_done env ns bp.Name bp.Homeservers 0 [] (by simpa using hok)]
  simp

theorem construct_fail (env : BuildEnv) (ns : String) (bp : Blueprint)
    (nw e : String) (k : Nat)
    (hnet : createNetworkIfNotExists env ns bp.Name = .ok nw)
    (hk : k < bp.Homeservers.length)
    (hprev : ∀ j, j < k → hsErrAt env j = none)
    (hfail : hsErrAt env k = some e) :
    construct env ns bp =
      ([e], failTrace env 0 k ++
        runDefers env (resultsFor env ns bp.Name (bp.Homeservers.take k) 0)) := by
  rw [construct, hnet,
    constructLoop_fail env ns bp.Name k bp.Homeservers 0 [] e hk
      (by simpa using hprev) (by simpa using hfail)]
  simp

/-! Shape lemmas: which event constructors each phase can emit. -/

theorem deferKillEvents_shape (env : BuildEnv) (cid : String) :
    ∀ e ∈ deferKillEvents env cid,
      e = BEvent.inspected cid ∨ e = BEvent.killed cid := by
  intro e he
  unfold deferKillEvents at he
  cases h : env.containerInspect cid with
  | error m =>
    rw [h] at he
    simp at he
    exact Or.inl he
  | ok running =>
    rw [h] at he
    cases running
    · simp at he
      exact Or.inl he
    · simp at he
      rcases he with he | he
      · exact Or.inl he
      · exact Or.inr he

theorem runDefers_shape (env : BuildEnv) (ds : List HsResult) :
    ∀ e ∈ runDefers env ds,
      (∃ c, e = BEvent.inspected c) ∨ (∃ c, e = BEvent.killed c) := by
  intro e he
  unfold runDefers at he
  rw [List.mem_flatMap] at he
  obtain ⟨r, _, hr⟩ := he
  rcases deferKillEvents_shape env r.containerID e hr with h | h
  · exact Or.inl ⟨_, h⟩
  · exact Or.inr ⟨_, h⟩

theorem commitPhase_trace_shape (env : BuildEnv) (bp : Blueprint)
    (rs : List HsResult) :
    ∀ e ∈ (commitPhase env bp rs).2,
      (∃ c t se, e = BEvent.stopped c t se) ∨
      (∃ c r ls, e = BEvent.commitCalled c r ls) := by
  intro e he
  rw [commitPhase_trace env bp rs, List.mem_flatMap] at he
  obtain ⟨r, _, hr⟩ := he
  simp at hr
  rcases hr with hr | hr
  · exact Or.inl ⟨_, _, _, hr⟩
  · exact Or.inr ⟨_, _, _, hr⟩

theorem failTrace_shape (env : BuildEnv) (i k : Nat) :
    ∀ e ∈ failTrace env i k,
      (∃ j, e = BEvent.constructed (i + j) ∧ j ≤ k) ∨
      e = BEvent.printedLogs (env.deployContainerID (i + k)) ∨
      e = BEvent.removedFailedContainer (env.deployContainerID (i + k)) := by
  intro e he
  unfold failTrace at he
  rw [List.mem_append] at he
  rcases he with he | he
  · rw [List.mem_map] at he
    obtain ⟨j, hj, rfl⟩ := he
    rw [List.mem_range] at hj
    exact Or.inl ⟨j, rfl, by omega⟩
  · rw [List.mem_append] at he
    rcases he with he | he
    · by_cases hcid : env.deployContainerID (i + k) ≠ ""
      · rw [if_pos hcid] at he
        simp at he
        exact Or.inr (Or.inl he)
      · rw [if_neg hcid] at he
        simp at he
    · simp at he
      exact Or.inr (Or.inr he)

/-- Claim C1 (confirmed): when instance `k` is the first to fail
construction, the error list is exactly the failing instance's error, no
instance beyond `k` is constructed, the failed container is force-removed,
its logs are printed exactly when its identifier is non-empty, and no stop
or commit call is ever issued. -/
theorem C1_abort_behaviour (env : BuildEnv) (ns : String) (bp : Blueprint)
    (nw e : String) (k : Nat)
    (hnet : createNetworkIfNotExists env ns bp.Name = .ok nw)
    (hk : k < bp.Homeservers.length)
    (hprev : ∀ j, j < k → hsErrAt env j = none)
    (hfail : hsErrAt env k = some e) :
    (construct env ns bp).1 = [e] ∧
    (∀ j, BEvent.constructed j ∈ (construct env ns bp).2 → j ≤ k) ∧
    BEvent.removedFailedContainer (env.deployContainerID k) ∈ (construct env ns bp).2 ∧
    (env.deployContainerID k ≠ "" ↔
       BEvent.printedLogs (env.deployContainerID k) ∈ (construct env ns bp).2) ∧
    (∀ c t se, BEvent.stopped c t se ∉ (construct env ns bp).2) ∧
    (∀ c r ls, BEvent.commitCalled c r ls ∉ (construct env ns bp).2) := by
  have hcf := construct_fail env ns bp nw e k hnet hk hprev hfail
  rw [hcf]
  have hzk : (0 : Nat) + k = k := by omega
  refine ⟨rfl, ?_, ?_, ?_, ?_, ?_⟩
  · intro j hj
    simp only [List.mem_append] at hj
    rcases hj with hj | hj
    · rcases failTrace_shape env 0 k _ hj with ⟨j', hj', hle⟩ | hj' | hj'
      · simp only [BEvent.constructed.injEq] at hj'
        omega
      · exact absurd hj' (by simp)
      · exact absurd hj' (by simp)
    · rcases runDefers_shape env _ _ hj with ⟨c, hc⟩ | ⟨c, hc⟩ <;>
        exact absurd hc (by simp)
  · simp only [List.mem_append]
    left
    unfold failTrace
    simp only [List.mem_append]
    right
    right
    rw [hzk]
    simp
  · constructor
    · intro hcid
      simp only [List.mem_append]
      left
      unfold failTrace
      simp only [List.mem_append]
      right
      left
      rw [hzk, if_pos hcid]
      simp
    · intro hmem
      by_contra hcid0
      simp only [List.mem_append] at hmem
      rcases hmem with hmem | hmem
      · unfold failTrace at hmem
        simp only [List.mem_append] at hmem
        rcases hmem with hmem | hmem | hmem
        · rw [List.mem_map] at hmem
          obtain ⟨j, _, hj⟩ := hmem
          exact absurd hj (by simp)
        · rw [hzk, if_neg (by simp [hcid0])] at hmem
          simp at hmem
        · simp at hmem
      · rcases runDefers_shape env _ _ hmem with ⟨c, hc⟩ | ⟨c, hc⟩ <;>
          exact absurd hc (by simp)
  · intro c t se hmem
    simp only [List.mem_append] at hmem
    rcases hmem with hmem | hmem
    · rcases failTrace_shape env 0 k _ hmem with ⟨j', hj', _⟩ | hj' | hj' <;>
        exact absurd hj' (by simp)
    · rcases runDefers_shape env _ _ hmem with ⟨c', hc⟩ | ⟨c', hc⟩ <;>
        exact absurd hc (by simp)
  · intro c r ls hmem
    simp only [List.mem_append] at hmem
    rcases hmem with hmem | hmem
    · rcases failTrace_shape env 0 k _ hmem with ⟨j', hj', _⟩ | hj' | hj' <;>
        exact absurd hj' (by simp)
    · rcases runDefers_shape env _ _ hmem with ⟨c', hc⟩ | ⟨c', hc⟩ <;>
        exact absurd hc (by simp)

/-- A runtime whose second instance fails to deploy. -/
def envC1 : BuildEnv :=
  { baseEnv with deployErr := fun i => if i = 1 then some "deploy failed" else none }

/-- A blueprint with three instances. -/
def bp3 : Blueprint := ⟨"bp", [⟨"hs1"⟩, ⟨"hs2"⟩, ⟨"hs3"⟩], []⟩

/-- Witness for `C1_abort_behaviour`: instance 1 of three fails deployment;
the error list is exactly its error, its container is removed, and
instance 2 is never constructed. -/
theorem C1_abort_behaviour_witness :
    (construct envC1 "p" bp3).1 = ["deploy failed"] ∧
    BEvent.removedFailedContainer "c1" ∈ (construct envC1 "p" bp3).2 ∧
    BEvent.constructed 2 ∉ (construct envC1 "p" bp3).2 := by
  have h := C1_abort_behaviour envC1 "p" bp3 "complement_p_bp" "deploy failed" 1
    rfl (by decide) (by decide) rfl
  exact ⟨h.1, h.2.2.1, fun hm => by have := h.2.1 2 hm; omega⟩

theorem constructLoop_env_inert (env : BuildEnv) (I : String → Except String Bool)
    (K : String → Option String) (ns bname : String) :
    ∀ (hss : List Homeserver) (i : Nat) (acc : List HsResult),
    constructLoop { env with containerInspect := I, containerKill := K }
        ns bname hss i acc =
      constructLoop env ns bname hss i acc := by
  intro hss
  induction hss with
  | nil => intro i acc; rfl
  | cons hs rest ih =>
    intro i acc
    have hch : constructHomeserver
        { env with containerInspect := I, containerKill := K } ns bname i hs =
        constructHomeserver env ns bname i hs := rfl
    simp only [constructLoop, hch, ih]

theorem commitPhase_env_inert (env : BuildEnv) (I : String → Except String Bool)
    (K : String → Option String) (bp : Blueprint) :
    ∀ rs : List HsResult,
    commitPhase { env with containerInspect := I, containerKill := K } bp rs =
      commitPhase env bp rs := by
  intro rs
  induction rs with
  | nil => rfl
  | cons r rest ih =>
    have hcl : commitLabels
        { env with containerInspect := I, containerKill := K } bp r.hsName =
        commitLabels env bp r.hsName := rfl
    simp only [commitPhase, hcl, ih]

theorem construct_errs_env_inert (env : BuildEnv) (I : String → Except String Bool)
    (K : String → Option String) (ns : String) (bp : Blueprint) :
    (construct { env with containerInspect := I, containerKill := K } ns bp).1 =
      (construct env ns bp).1 := by
  unfold construct
  have hnet : createNetworkIfNotExists
      { env with containerInspect := I, containerKill := K } ns bp.Name =
      createNetworkIfNotExists env ns bp.Name := rfl
  rw [hnet, constructLoop_env_inert env I K ns bp.Name]
  cases createNetworkIfNotExists env ns bp.Name with
  | error e => rfl
  | ok nw =>
    cases constructLoop env ns bp.Name bp.Homeservers 0 [] with
    | abort e tr ds => rfl
    | done tr rs =>
      simp only [commitPhase_env_inert env I K bp]

/-- Claim C9 (confirmed): on both exit paths the build's trace is the
construction (and, on the success path, commit) events followed by the
deferred kills of exactly the registered — that is, successfully
constructed — instances, executed in reverse registration order; commit
events never occur among the deferred-kill events, and the build's error
list is unchanged under arbitrary inspect/kill outcomes. -/
theorem C9_deferred_kills (env : BuildEnv) (ns : String) (bp : Blueprint) (nw : String)
    (hnet : createNetworkIfNotExists env ns bp.Name = .ok nw) :
    ((∀ j, j < bp.Homeservers.length → hsErrAt env j = none) →
       (construct env ns bp).2 =
         ((List.range bp.Homeservers.length).map (fun j => BEvent.constructed j) ++
             (commitPhase env bp (resultsFor env ns bp.Name bp.Homeservers 0)).2) ++
           (resultsFor env ns bp.Name bp.Homeservers 0).reverse.flatMap
             (fun r => deferKillEvents env r.containerID)) ∧
    (∀ k e, k < bp.Homeservers.length → (∀ j, j < k → hsErrAt env j = none) →
       hsErrAt env k = some e →
       (construct env ns bp).2 =
         failTrace env 0 k ++
           (resultsFor env ns bp.Name (bp.Homeservers.take k) 0).reverse.flatMap
             (fun r => deferKillEvents env r.containerID)) ∧
    (∀ e ∈ (commitPhase env bp (resultsFor env ns bp.Name bp.Homeservers 0)).2,
       (∀ c, e ≠ BEvent.inspected c) ∧ (∀ c, e ≠ BEvent.killed c)) ∧
    (∀ I K, (construct { env with containerInspect := I, containerKill := K } ns bp).1 =
       (construct env ns bp).1) := by
  refine ⟨fun hok => ?_, fun k e hk hprev hfail => ?_, fun e he => ?_,
    fun I K => construct_errs_env_inert env I K ns bp⟩
  · rw [construct_done env ns bp nw hnet hok]
    rfl
  · rw [construct_fail env ns bp nw e k hnet hk hprev hfail]
    rfl
  · rcases commitPhase_trace_shape env bp _ e he with ⟨c, t, se, rfl⟩ | ⟨c, r, ls, rfl⟩ <;>
      exact ⟨fun c' => by simp, fun c' => by simp⟩

/-- A blueprint with a single instance. -/
def bp1 : Blueprint := ⟨"bp", [⟨"hs1"⟩], []⟩

/-- A runtime whose inspect and kill calls all fail. -/
def envC9 : BuildEnv :=
  { baseEnv with
    containerInspect := fun _ => Except.error "x"
    containerKill := fun _ => some "y" }

/-- Witness for `C9_deferred_kills`: on the benign runtime with one
instance, the trace decomposes as stated and the error list ignores
inspect/kill outcomes. -/
theorem C9_deferred_kills_witness :
    (construct baseEnv "p" bp1).2 =
      ((List.range 1).map (fun j => BEvent.constructed j) ++
          (commitPhase baseEnv bp1 (resultsFor baseEnv "p" "bp" bp1.Homeservers 0)).2) ++
        (resultsFor baseEnv "p" "bp" bp1.Homeservers 0).reverse.flatMap
          (fun r => deferKillEvents baseEnv r.containerID) ∧
    (construct envC9 "p" bp1).1 = (construct baseEnv "p" bp1).1 := by
  have h := C9_deferred_kills baseEnv "p" bp1 "complement_p_bp" rfl
  exact ⟨h.1 (by decide),
    h.2.2.2 (fun _ => Except.error "x") (fun _ => some "y")⟩

/-- A runtime where every container stop fails. -/
def envC7 : BuildEnv := { baseEnv with containerStop := fun _ => some "stop failed" }

/-- A successful construction result handed to the commit loop. -/
def resC7 : HsResult := ⟨none, "c0", "p.bp.hs1", "hs1"⟩

/-- Claim C7 is falsified: the stop call before the commit fails, the
commit succeeds, and the returned error set is empty — the code discards
`ContainerStop`'s error, so a stop failure is never recorded. -/
theorem C7_counterexample :
    envC7.containerStop "c0" = some "stop failed" ∧
    BEvent.stopped "c0" 10 (some "stop failed") ∈
      (commitPhase envC7 bpEmpty [resC7]).2 ∧
    (commitPhase envC7 bpEmpty [resC7]).1 = [] := by
  refine ⟨rfl, by decide, rfl⟩

/-- Claim C7 (amended): for every successful instance result the commit
pipeline issues a graceful stop with a 10-second timeout before the commit
call; a failure of the commit call for one instance is recorded in the
returned error set while the remaining instances are still committed, but a
failure of the stop call is discarded and never recorded. -/
theorem C7_amended_thm (env : BuildEnv) (bp : Blueprint) (rs : List HsResult) :
    (commitPhase env bp rs).2 = rs.flatMap (fun r =>
      [BEvent.stopped r.containerID 10 (env.containerStop r.containerID),
       BEvent.commitCalled r.containerID ("localhost/complement:" ++ r.contextStr)
         (commitLabels env bp r.hsName)]) ∧
    (commitPhase env bp rs).1 = rs.filterMap (fun r =>
      match env.containerCommit r.containerID with
      | .error e => some (r.contextStr ++ " : failed to ContainerCommit: " ++ e)
      | .ok _ => none) ∧
    (∀ S, (commitPhase { env with containerStop := S } bp rs).1 =
       (commitPhase env bp rs).1) :=
  ⟨commitPhase_trace env bp rs, commitPhase_errs env bp rs, fun S => by
    rw [commitPhase_errs, commitPhase_errs]⟩

theorem access_token_key_inj (u v : String)
    (h : "access_token_" ++ u = "access_token_" ++ v) : u = v := by
  have hd := congrArg String.data h
  rw [String.data_append, String.data_append] at hd
  exact String.ext (List.append_cancel_left hd)

theorem tokenLabels_mem (keepFor : List String) (toks : List (String × String))
    (u t : String) :
    ("access_token_" ++ u, t) ∈ tokenLabels keepFor toks ↔
      (if keepFor = [] then (u, t) ∈ toks
       else u ∈ keepFor ∧ toks.lookup u = some t) := by
  unfold tokenLabels
  by_cases hk : keepFor = []
  · subst hk
    rw [if_neg (by simp), if_pos rfl]
    constructor
    · intro hm
      rw [List.mem_map] at hm
      obtain ⟨⟨a, b⟩, hab, heq⟩ := hm
      simp only [Prod.mk.injEq] at heq
      obtain ⟨h1, h2⟩ := heq
      have ha := access_token_key_inj a u h1
      subst ha
      subst h2
      exact hab
    · intro hm
      exact List.mem_map.mpr ⟨(u, t), hm, rfl⟩
  · have hlen : keepFor.length > 0 := List.length_pos.mpr hk
    rw [if_pos hlen, if_neg hk]
    constructor
    · intro hm
      rw [List.mem_filterMap] at hm
      obtain ⟨uid, huid, hopt⟩ := hm
      rw [Option.map_eq_some'] at hopt
      obtain ⟨tok, htok, heq⟩ := hopt
      simp only [Prod.mk.injEq] at heq
      obtain ⟨h1, h2⟩ := heq
      have hu := access_token_key_inj uid u h1
      subst hu
      subst h2
      exact ⟨huid, htok⟩
    · rintro ⟨hu, ht⟩
      rw [List.mem_filterMap]
      exact ⟨u, hu, by rw [ht]; rfl⟩

/-- Claim C4 (confirmed): among the labels attached at commit time, the
access-token labels are exactly the captured credentials of the allow-listed
identities when the blueprint's allow-list is non-empty, and all captured
credentials when it is empty (provided, as in practice, that device and
application-service labels never use an `access_token_` key). -/
theorem C4_credential_retention (env : BuildEnv) (bp : Blueprint)
    (hsName u t : String)
    (hdev : ∀ t', ("access_token_" ++ u, t') ∉ deviceLabels (env.deviceIDs hsName))
    (has : ∀ t', ("access_token_" ++ u, t') ∉ env.asLabels hsName) :
    ("access_token_" ++ u, t) ∈ commitLabels env bp hsName ↔
      (if bp.KeepAccessTokensForUsers = [] then (u, t) ∈ env.accessTokens hsName
       else u ∈ bp.KeepAccessTokensForUsers ∧
         (env.accessTokens hsName).lookup u = some t) := by
  unfold commitLabels
  rw [List.mem_append, List.mem_append]
  constructor
  · rintro ((hm | hm) | hm)
    · exact (tokenLabels_mem _ _ u t).mp hm
    · exact absurd hm (hdev t)
    · exact absurd hm (has t)
  · intro hm
    exact Or.inl (Or.inl ((tokenLabels_mem _ _ u t).mpr hm))

/-- A runtime that captured credentials for two users. -/
def envC4 : BuildEnv :=
  { baseEnv with
    accessTokens := fun _ => [("@alice:x", "ta"), ("@bob:x", "tb")] }

/-- A blueprint allow-listing only one of the two captured identities. -/
def bpC4 : Blueprint := ⟨"bp", [], ["@alice:x"]⟩

/-- Witness for `C4_credential_retention`: the non-empty allow-list keeps
only the listed identity's credential, the empty allow-list keeps both. -/
theorem C4_credential_retention_witness :
    ("access_token_" ++ "@alice:x", "ta") ∈ commitLabels envC4 bpC4 "hs1" ∧
    ("access_token_" ++ "@bob:x", "tb") ∉ commitLabels envC4 bpC4 "hs1" ∧
    ("access_token_" ++ "@bob:x", "tb") ∈ commitLabels envC4 bpEmpty "hs1" := by
  have hdev : ∀ u t', (("access_token_" ++ u : String), t') ∉
      deviceLabels (envC4.deviceIDs "hs1") := by
    intro u t' h
    simp [deviceLabels, envC4, baseEnv] at h
  have has : ∀ u t', (("access_token_" ++ u : String), t') ∉ envC4.asLabels "hs1" := by
    intro u t' h
    simp [envC4, baseEnv] at h
  refine ⟨?_, ?_, ?_⟩
  · exact (C4_credential_retention envC4 bpC4 "hs1" "@alice:x" "ta"
      (hdev "@alice:x") (has "@alice:x")).mpr (by decide)
  · intro hm
    have h := (C4_credential_retention envC4 bpC4 "hs1" "@bob:x" "tb"
      (hdev "@bob:x") (has "@bob:x")).mp hm
    exact absurd h (by decide)
  · exact (C4_credential_retention envC4 bpEmpty "hs1" "@bob:x" "tb"
      (hdev "@bob:x") (has "@bob:x")).mpr (by decide)

/-! The image-visibility poll is bounded: every attempt happens inside the
5000 ms window at 100 ms steps, so at most 50 list calls are issued. -/

theorem pollLoop_listed_bound (env : BuildEnv) (ns bname : String) (needed : Nat) :
    ∀ (fuel elapsed attempt : Nat), 5000 - elapsed ≤ 100 * fuel →
    ∀ f a, BEvent.listedImages f a ∈ (pollLoop env ns bname needed elapsed attempt).2 →
      f = pollFilters ns bname ∧ attempt ≤ a ∧ elapsed + 100 * (a - attempt) < 5000 := by
  intro fuel
  induction fuel with
  | zero =>
    intro elapsed attempt hle f a hmem
    rw [pollLoop_exhausted env ns bname needed elapsed attempt (by omega)] at hmem
    simp at hmem
  | succ n ih =>
    intro elapsed attempt hle f a hmem
    by_cases he : elapsed < 5000
    · cases hl : env.imageList (pollFilters ns bname) attempt with
      | error m =>
        rw [pollLoop_err env ns bname needed elapsed attempt m he hl] at hmem
        simp at hmem
        obtain ⟨rfl, rfl⟩ := hmem
        exact ⟨rfl, Nat.le_refl _, by omega⟩
      | ok l =>
        by_cases hlt : l.length < needed
        · rw [pollLoop_step env ns bname needed elapsed attempt l he hl hlt] at hmem
          simp only [List.mem_cons] at hmem
          rcases hmem with hmem | hmem
          · simp only [BEvent.listedImages.injEq] at hmem
            obtain ⟨rfl, rfl⟩ := hmem
            exact ⟨rfl, Nat.le_refl _, by omega⟩
          · obtain ⟨hf, hle', hb⟩ := ih (elapsed + 100) (attempt + 1) (by omega) f a hmem
            exact ⟨hf, by omega, by omega⟩
        · rw [pollLoop_hit env ns bname needed elapsed attempt l he hl hlt] at hmem
          simp at hmem
          obtain ⟨rfl, rfl⟩ := hmem
          exact ⟨rfl, Nat.le_refl _, by omega⟩
    · rw [pollLoop_exhausted env ns bname needed elapsed attempt he] at hmem
      simp at hmem

theorem pollLoop_ok_of_ok (env : BuildEnv) (ns bname : String) (needed : Nat) :
    ∀ (fuel elapsed attempt : Nat), 5000 - elapsed ≤ 100 * fuel →
    (∀ i, ∃ l, env.imageList (pollFilters ns bname) i = .ok l) →
    ∃ found imgs, (pollLoop env ns bname needed elapsed attempt).1 = .ok (found, imgs) := by
  intro fuel
  induction fuel with
  | zero =>
    intro elapsed attempt hle _
    rw [pollLoop_exhausted env ns bname needed elapsed attempt (by omega)]
    exact ⟨false, [], rfl⟩
  | succ n ih =>
    intro elapsed attempt hle hok
    by_cases he : elapsed < 5000
    · obtain ⟨l, hl⟩ := hok attempt
      by_cases hlt : l.length < needed
      · rw [pollLoop_step env ns bname needed elapsed attempt l he hl hlt]
        exact ih (elapsed + 100) (attempt + 1) (by omega) hok
      · rw [pollLoop_hit env ns bname needed elapsed attempt l he hl hlt]
        exact ⟨true, l, rfl⟩
    · rw [pollLoop_exhausted env ns bname needed elapsed attempt he]
      exact ⟨false, [], rfl⟩

theorem pollLoop_timeout (env : BuildEnv) (ns bname : String) (needed : Nat) :
    ∀ (fuel elapsed attempt : Nat), 5000 - elapsed ≤ 100 * fuel →
    (∀ i l, env.imageList (pollFilters ns bname) i = .ok l → l.length < needed) →
    (∀ i, ∃ l, env.imageList (pollFilters ns bname) i = .ok l) →
    (pollLoop env ns bname needed elapsed attempt).1 = .ok (false, []) := by
  intro fuel
  induction fuel with
  | zero =>
    intro elapsed attempt hle _ _
    rw [pollLoop_exhausted env ns bname needed elapsed attempt (by omega)]
  | succ n ih =>
    intro elapsed attempt hle hsmall hok
    by_cases he : elapsed < 5000
    · obtain ⟨l, hl⟩ := hok attempt
      rw [pollLoop_step env ns bname needed elapsed attempt l he hl (hsmall attempt l hl)]
      exact ih (elapsed + 100) (attempt + 1) (by omega) hsmall hok
    · rw [pollLoop_exhausted env ns bname needed elapsed attempt he]

/-- The trace list of a loop outcome. -/
def LoopOut.trace : LoopOut → List BEvent
  | .abort _ tr _ => tr
  | .done tr _ => tr

theorem constructLoop_trace_shape (env : BuildEnv) (ns bname : String) :
    ∀ (hss : List Homeserver) (i : Nat) (acc : List HsResult) (e : BEvent),
    e ∈ (constructLoop env ns bname hss i acc).trace →
    (∃ j, e = BEvent.constructed j) ∨ (∃ c, e = BEvent.printedLogs c) ∨
    (∃ c, e = BEvent.removedFailedContainer c) := by
  intro hss
  induction hss with
  | nil =>
    intro i acc e he
    simp [constructLoop, LoopOut.trace] at he
  | cons hs rest ih =>
    intro i acc e he
    simp only [constructLoop] at he
    cases herr : (constructHomeserver env ns bname i hs).err with
    | some e' =>
      rw [herr] at he
      simp only [LoopOut.trace, List.mem_append, List.mem_singleton] at he
      rcases he with (he | he) | he
      · exact Or.inl ⟨i, he⟩
      · by_cases hcid : (constructHomeserver env ns bname i hs).containerID ≠ ""
        · rw [if_pos hcid] at he
          simp at he
          exact Or.inr (Or.inl ⟨_, he⟩)
        · rw [if_neg hcid] at he
          simp at he
      · exact Or.inr (Or.inr ⟨_, he⟩)
    | none =>
      rw [herr] at he
      cases hrec : constructLoop env ns bname rest (i + 1)
          (acc ++ [constructHomeserver env ns bname i hs]) with
      | abort e' tr ds =>
        rw [hrec] at he
        simp only [LoopOut.trace, List.mem_cons] at he
        rcases he with he | he
        · exact Or.inl ⟨i, he⟩
        · have := ih (i + 1) (acc ++ [constructHomeserver env ns bname i hs]) e
            (by rw [hrec]; exact he)
          exact this
      | done tr rs =>
        rw [hrec] at he
        simp only [LoopOut.trace, List.mem_cons] at he
        rcases he with he | he
        · exact Or.inl ⟨i, he⟩
        · have := ih (i + 1) (acc ++ [constructHomeserver env ns bname i hs]) e
            (by rw [hrec]; exact he)
          exact this

theorem construct_trace_shape (env : BuildEnv) (ns : String) (bp : Blueprint) :
    ∀ e ∈ (construct env ns bp).2,
    (∃ j, e = BEvent.constructed j) ∨ (∃ c, e = BEvent.printedLogs c) ∨
    (∃ c, e = BEvent.removedFailedContainer c) ∨
    (∃ c t se, e = BEvent.stopped c t se) ∨ (∃ c r ls, e = BEvent.commitCalled c r ls) ∨
    (∃ c, e = BEvent.inspected c) ∨ (∃ c, e = BEvent.killed c) := by
  intro e he
  rw [construct] at he
  cases hnet : createNetworkIfNotExists env ns bp.Name with
  | error m =>
    rw [hnet] at he
    simp at he
  | ok nw =>
    rw [hnet] at he
    cases hL : constructLoop env ns bp.Name bp.Homeservers 0 [] with
    | abort e' tr ds =>
      rw [hL] at he
      simp only [List.mem_append] at he
      rcases he with he | he
      · rcases constructLoop_trace_shape env ns bp.Name bp.Homeservers 0 [] e
          (by rw [hL]; exact he) with h | h | h
        · exact Or.inl h
        · exact Or.inr (Or.inl h)
        · exact Or.inr (Or.inr (Or.inl h))
      · rcases runDefers_shape env ds e he with h | h
        · exact Or.inr (Or.inr (Or.inr (Or.inr (Or.inr (Or.inl h)))))
        · exact Or.inr (Or.inr (Or.inr (Or.inr (Or.inr (Or.inr h)))))
    | done tr rs =>
      rw [hL] at he
      simp only [List.mem_append] at he
      rcases he with (he | he) | he
      · rcases constructLoop_trace_shape env ns bp.Name bp.Homeservers 0 [] e
          (by rw [hL]; exact he) with h | h | h
        · exact Or.inl h
        · exact Or.inr (Or.inl h)
        · exact Or.inr (Or.inr (Or.inl h))
      · rcases commitPhase_trace_shape env bp rs e he with h | h
        · exact Or.inr (Or.inr (Or.inr (Or.inl h)))
        · exact Or.inr (Or.inr (Or.inr (Or.inr (Or.inl h))))
      · rcases runDefers_shape env rs e he with h | h
        · exact Or.inr (Or.inr (Or.inr (Or.inr (Or.inr (Or.inl h)))))
        · exact Or.inr (Or.inr (Or.inr (Or.inr (Or.inr (Or.inr h)))))

/-- Claim C6 (confirmed): after an error-free construction, and provided
the poll's catalog queries themselves succeed, `ConstructBlueprint` issues
at most 50 list attempts (the 5-second window at 100-millisecond steps),
its final action is the network removal — issued after the poll in both
the found and the timeout outcome — and if every query inside the window
reports fewer images than the blueprint's instance count, it returns the
visibility failure even though no commit reported an error. -/
theorem C6_visibility_poll (env : BuildEnv) (ns : String) (bp : Blueprint)
    (hc : (construct env ns bp).1 = [])
    (hok : ∀ i, ∃ l, env.imageList (pollFilters ns bp.Name) i = .ok l) :
    (∀ f a, BEvent.listedImages f a ∈ (ConstructBlueprint env ns bp).2 →
       f = pollFilters ns bp.Name ∧ a < 50) ∧
    (ConstructBlueprint env ns bp).2.getLast? = some BEvent.removedNetworks ∧
    ((∀ i l, env.imageList (pollFilters ns bp.Name) i = .ok l →
        l.length < bp.Homeservers.length) →
      (ConstructBlueprint env ns bp).1 =
        .error "failed to find built images via ImageList: did they all build ok?") := by
  obtain ⟨found, imgs, hp⟩ :=
    pollLoop_ok_of_ok env ns bp.Name bp.Homeservers.length 50 0 0 (by omega) hok
  have hCB : ConstructBlueprint env ns bp =
      (if found then (.ok ()) else
        (.error "failed to find built images via ImageList: did they all build ok?"),
       (construct env ns bp).2 ++
         (pollLoop env ns bp.Name bp.Homeservers.length 0 0).2 ++
         [BEvent.removedNetworks]) := by
    rw [ConstructBlueprint]
    simp only [hc, ne_eq, not_true_eq_false, if_false]
    rw [hp]
    cases found <;> simp
  refine ⟨fun f a hmem => ?_, ?_, fun hsmall => ?_⟩
  · rw [hCB] at hmem
    simp only [List.mem_append, List.mem_singleton] at hmem
    rcases hmem with (hmem | hmem) | hmem
    · rcases construct_trace_shape env ns bp _ hmem with ⟨j, h⟩ | ⟨c, h⟩ | ⟨c, h⟩ |
        ⟨c, t, se, h⟩ | ⟨c, r, ls, h⟩ | ⟨c, h⟩ | ⟨c, h⟩ <;> exact absurd h (by simp)
    · obtain ⟨hf, hle, hb⟩ :=
        pollLoop_listed_bound env ns bp.Name bp.Homeservers.length 50 0 0
          (by omega) f a hmem
      exact ⟨hf, by omega⟩
    · exact absurd hmem (by simp)
  · rw [hCB]
    simp only [List.getLast?_concat]
  · have hto := pollLoop_timeout env ns bp.Name bp.Homeservers.length 50 0 0
      (by omega) hsmall hok
    have h2 := hto.symm.trans hp
    injection h2 with h2
    have hff : found = false := (congrArg Prod.fst h2).symm
    rw [hCB, hff]
    simp

/-- Witness for `C6_visibility_poll`: a one-instance blueprint whose
construction and commit succeed, on a runtime whose catalog remains empty,
times out after the poll and returns the visibility failure. -/
theorem C6_visibility_poll_witness :
    (construct baseEnv "p" bp1).1 = [] ∧
    (ConstructBlueprint baseEnv "p" bp1).1 =
      .error "failed to find built images via ImageList: did they all build ok?" := by
  have h := C6_visibility_poll baseEnv "p" bp1 rfl (fun i => ⟨[], rfl⟩)
  refine ⟨rfl, h.2.2 (fun i l hl => ?_)⟩
  injection hl with hl
  simp [← hl, bp1]

end Builder
